import Mathlib

/-!
Shallow embedding of the maze-generation core of the repository
(randomization utilities, grid graph model, randomized DFS carver,
Wilsons algorithm carver, render/delay bridge), translated from the
TypeScript source.  Cells are identified by their coordinates, which are
unique per maze, so JavaScript reference equality on Cell objects is
modelled by coordinate equality.  Randomness (Math.random) is modelled by
a stream of naturals consumed one draw at a time; each draw is reduced
modulo the relevant collection size, which realises exactly the values
Math.floor(Math.random() * length) can take.
-/

namespace MazeGen

/-- A cell is identified by its (x, y) grid coordinates. -/
abbrev Coord := Nat × Nat

/-- Draw one value from the randomness stream (default 0 when exhausted). -/
def pop (r : List Nat) : Nat × List Nat :=
  (r.headD 0, r.tail)

/-- Embedding of `randomMember` (source lines 155-165): throws
`Error("empty group")` on an empty collection, otherwise returns the element
at index `Math.floor(Math.random() * items.length)`.  A `Set` argument is
first converted by `Array.from`, so both sets and arrays are modelled as
lists (a set being a duplicate-free list in insertion order). -/
def randomMember {α : Type} (l : List α) (k : Nat) : Except String α :=
  if h : l.length = 0 then Except.error "empty group"
  else Except.ok (l.get ⟨k % l.length, Nat.mod_lt _ (Nat.pos_of_ne_zero h)⟩)

/-- One selection step of the shuffle model: remove the element at the drawn
index and continue.  The source `shuffle` sorts with a random comparator,
which returns some permutation of its input; this model realises every
permutation, driven by the randomness stream. -/
def shuffleGo {α : Type} : Nat → List α → List Nat → List α × List Nat
  | 0, _, r => ([], r)
  | _ + 1, [], r => ([], r)
  | n + 1, a :: as, r =>
    let (k, r1) := pop r
    let i := k % (a :: as).length
    let x := (a :: as).getD i a
    let rest := (a :: as).take i ++ (a :: as).drop (i + 1)
    let (xs, r2) := shuffleGo n rest r1
    (x :: xs, r2)

/-- Embedding of `shuffle` (source lines 152-153), as a random permutation. -/
def shuffle {α : Type} (l : List α) (r : List Nat) : List α × List Nat :=
  shuffleGo l.length l r

/-- The maze state: dimensions plus the flat list of directed edge entries.
An entry `(a, b)` records one `a.edges.push(b)`; `carveEdge` always pushes a
pair of entries.  Per-cell edge lists are recovered by filtering, which
preserves the push order of each cell. -/
structure MazeState where
  width : Nat
  height : Nat
  E : List (Coord × Coord)
deriving DecidableEq

/-- Embedding of the neighbor wiring in the `Maze` constructor (source lines
257-266): left, right, top, bottom, clipped at the grid bounds, in that
order. -/
def neighbors (w h : Nat) : Coord → List Coord
  | (x, y) =>
    (if 0 < x then [(x - 1, y)] else []) ++
    (if x < w - 1 then [(x + 1, y)] else []) ++
    (if 0 < y then [(x, y - 1)] else []) ++
    (if y < h - 1 then [(x, y + 1)] else [])

/-- All cells of the maze in `maze.cells.flat()` order (row-major, y outer). -/
def allCells (w h : Nat) : List Coord :=
  (List.range h).flatMap (fun y => (List.range w).map (fun x => (x, y)))

/-- A freshly constructed maze: every edge list empty (source lines 242-267). -/
def initMaze (w h : Nat) : MazeState :=
  { width := w, height := h, E := [] }

/-- The edge list of one cell, in push order. -/
def cellEdges (st : MazeState) (c : Coord) : List Coord :=
  (st.E.filter (fun p => p.1 == c)).map (fun p => p.2)

/-- Embedding of `Cell.carveEdge` (source lines 183-187):
`this.edges.push(neighbor); neighbor.edges.push(this)`.  Carving a cell to
itself therefore pushes that cell twice into its own edge list. -/
def carveEdge (st : MazeState) (a b : Coord) : MazeState :=
  { st with E := st.E ++ [(a, b), (b, a)] }

/-- Embedding of `Cell.uncarvedEdges` (source lines 189-193): the neighbors
that do not occur in the edge list, preserving neighbor order. -/
def uncarvedEdges (st : MazeState) (c : Coord) : List Coord :=
  (neighbors st.width st.height c).filter (fun n => !(cellEdges st c).contains n)

/-- Embedding of `Maze.getCell` (source lines 269-274): bounds-checked
lookup, `none` out of range.  Coordinates are naturals here, so the `x < 0`
and `y < 0` branches of the source are vacuous. -/
def getCell (st : MazeState) (c : Coord) : Option Coord :=
  if c.1 < st.width ∧ c.2 < st.height then some c else none

/-- Spec-side description of grid adjacency: the four candidate coordinates
(x-1,y), (x+1,y), (x,y-1), (x,y+1), over the integers so that the candidates
below zero are representable. -/
def gridAdjacent (x y : Nat) : List (Int × Int) :=
  [((x : Int) - 1, (y : Int)), ((x : Int) + 1, (y : Int)),
   ((x : Int), (y : Int) - 1), ((x : Int), (y : Int) + 1)]

/-- Spec-side bounds test for a candidate coordinate. -/
def inBounds (w h : Nat) (p : Int × Int) : Bool :=
  decide (0 ≤ p.1) && decide (p.1 < (w : Int)) &&
  decide (0 ≤ p.2) && decide (p.2 < (h : Int))

/-- Spec-side neighbor list, from the words of the spec: exactly the
in-bounds grid-adjacent cells at (x-1,y), (x+1,y), (x,y-1), (x,y+1). -/
def specNeighbors (w h x y : Nat) : List Coord :=
  (gridAdjacent x y).filterMap
    (fun p => if inBounds w h p then some (p.1.toNat, p.2.toNat) else none)

/-- Embedding of the recursive `visit` closure of `solveMazeWithRandomDPS`
(source lines 279-297).  The visited set is a list of coordinates (the
source uses a set of coordinate strings).  Note that the source adds the
coordinate to `visited` before the bounds check, and that the root
invocation passes the start cell as its own predecessor, so the first carve
is `start.carveEdge(start)`.  Recursion is bounded by fuel, which strictly
exceeds the recursion depth for the runs used below. -/
def dfsVisit : Nat → MazeState → List Coord → Coord → Coord → List Nat →
    MazeState × List Coord × List Nat
  | 0, st, vis, _, _, r => (st, vis, r)
  | fuel + 1, st, vis, last, c, r =>
    if vis.contains c then (st, vis, r)
    else
      let vis1 := c :: vis
      match getCell st c with
      | none => (st, vis1, r)
      | some _ =>
        let st1 := carveEdge st c last
        let (ns, r1) := shuffle (uncarvedEdges st1 c) r
        ns.foldl (fun acc n => dfsVisit fuel acc.1 acc.2.1 c n acc.2.2) (st1, vis1, r1)

/-- Embedding of `solveMazeWithRandomDPS` (source lines 277-301): pick a
random start cell from the flattened cell list and run `visit(start,
start.x, start.y)`.  The async `visit` has no await point, so it runs to
completion synchronously. -/
def solveMazeWithRandomDPS (w h : Nat) (r : List Nat) : Except String MazeState :=
  let (k, r1) := pop r
  match randomMember (allCells w h) k with
  | Except.error e => Except.error e
  | Except.ok c =>
    let res := dfsVisit (w * h + 2) (initMaze w h) [] c c r1
    Except.ok res.1

/-- True when the DFS carver returned normally (did not throw). -/
def dfsOk (w h : Nat) (r : List Nat) : Bool :=
  match solveMazeWithRandomDPS w h r with
  | Except.ok _ => true
  | Except.error _ => false

/-- Extract the maze from a DFS result (dummy empty maze on error). -/
def exceptState (e : Except String MazeState) : MazeState :=
  match e with
  | Except.ok st => st
  | Except.error _ => initMaze 0 0

/-- Embedding of `timeoutWithCancel` (source lines 303-312): the promise
rejects with `Error("aborted")` exactly when an abort event fires on the
signal while the delay is pending (the handler is an event listener added at
call time), and resolves normally otherwise.  The boolean argument states
whether such an event fires during this pending window. -/
def timeoutWithCancel (fires : Bool) : Except String Unit :=
  if fires then Except.error "aborted" else Except.ok ()

/-- An observable effect of one Wilsons-algorithm step: a `renderMaze(maze,
currentCell, currentPath, ctx)` call (recording the current cell and path
arguments), or an awaited per-step / terminal delay that completed. -/
inductive Ev where
  | render : Option Coord → List Coord → Ev
  | delay : Ev
deriving DecidableEq

/-- The running state of the Wilsons-algorithm embedding: the maze, the
unvisited and visited sets (JavaScript `Set` objects, modelled as
duplicate-free lists in insertion order), the step counter, the trace of
render/delay effects, the number of delay calls made so far, and the
remaining randomness stream. -/
structure WState where
  maze : MazeState
  unvis : List Coord
  vis : List Coord
  steps : Nat
  trace : List Ev
  dly : Nat
  rnd : List Nat
deriving DecidableEq

/-- `Set.add` on the insertion-ordered list model. -/
def setAdd (l : List Coord) (c : Coord) : List Coord :=
  if l.contains c then l else l ++ [c]

/-- `Set.delete` on the insertion-ordered list model. -/
def setDel (l : List Coord) (c : Coord) : List Coord :=
  l.filter (fun a => a != c)

/-- First index of `c` in `path` (JavaScript `indexOf` with reference
equality; returns the length when absent, which the caller guards). -/
def idxOfC : List Coord → Coord → Nat
  | [], _ => 0
  | a :: as, c => if a = c then 0 else idxOfC as c + 1

/-- The path update of one walk step after `next` has been chosen (source
lines 393-398): if `next` already occurs in the path, slice the path up to
and including the first occurrence of `next`; otherwise push `next`. -/
def stepPath (path : List Coord) (next : Coord) : List Coord :=
  if path.contains next then path.take (idxOfC path next + 1) else path ++ [next]

/-- Embedding of the inner random-walk loop of `wilsonsAlgorithm` (source
lines 387-408).  Each iteration increments the step counter, pushes the
current cell onto the path, draws a random uncarved neighbor `next`,
performs the loop-erasure path update, and, only when `visited.size > 1`,
calls the renderer with `next` and the path and awaits the cancellable
delay (the nested `visited.size === 1` branch of the source is inside that
guard and therefore dead code).  Returns the final path when the walk
reaches a visited cell, or the propagated error. -/
def walkGo (sig : Nat → Bool) : Nat → WState → List Coord → Coord →
    WState × Except String (List Coord)
  | 0, s, _, _ => (s, Except.error "fuel")
  | fuel + 1, s, path, cur =>
    if s.vis.contains cur then (s, Except.ok path)
    else
      let s1 : WState := { s with steps := s.steps + 1, rnd := (pop s.rnd).2 }
      let path1 := path ++ [cur]
      match randomMember (uncarvedEdges s1.maze cur) (pop s.rnd).1 with
      | Except.error e => (s1, Except.error e)
      | Except.ok next =>
        let path2 := stepPath path1 next
        if s1.vis.length > 1 then
          let s2 : WState := { s1 with trace := s1.trace ++ [Ev.render (some next) path2] }
          match timeoutWithCancel (sig s2.dly) with
          | Except.error e => ({ s2 with dly := s2.dly + 1 }, Except.error e)
          | Except.ok _ =>
            walkGo sig fuel
              { s2 with dly := s2.dly + 1, trace := s2.trace ++ [Ev.delay] } path2 next
        else
          walkGo sig fuel s1 path2 next

/-- Embedding of the path-commit loop of `wilsonsAlgorithm` (source lines
410-416): for each consecutive pair of the walk path, carve an edge between
them and move the first cell of the pair from unvisited to visited. -/
def carveLoop : WState → List Coord → WState
  | s, a :: b :: rest =>
    carveLoop
      { s with maze := carveEdge s.maze a b, vis := setAdd s.vis a, unvis := setDel s.unvis a }
      (b :: rest)
  | s, _ => s

/-- Embedding of the outer loop of `wilsonsAlgorithm` (source lines
382-417): while unvisited cells remain, pick a random unvisited cell, run a
loop-erased random walk from it, and commit the resulting path. -/
def wilsonLoop (sig : Nat → Bool) : Nat → WState → WState × Except String Unit
  | 0, s => (s, Except.error "fuel")
  | fuel + 1, s =>
    if s.unvis.length = 0 then (s, Except.ok ())
    else
      let s1 : WState := { s with rnd := (pop s.rnd).2 }
      match randomMember s.unvis (pop s.rnd).1 with
      | Except.error e => (s1, Except.error e)
      | Except.ok c0 =>
        match walkGo sig fuel s1 [] c0 with
        | (s2, Except.error e) => (s2, Except.error e)
        | (s2, Except.ok path) => wilsonLoop sig fuel (carveLoop s2 path)

/-- Embedding of `wilsonsAlgorithm` (source lines 372-423): seed a random
start cell as visited, run the outer loop, then emit the final settled frame
(no current cell, empty path) and await the terminal delay before returning
the step count.  The final state is returned alongside the result so that
the maze left behind by an aborted run is observable. -/
def wilsonsAlgorithm (w h : Nat) (r : List Nat) (sig : Nat → Bool) (fuel : Nat) :
    WState × Except String Nat :=
  let cells := allCells w h
  let s0 : WState :=
    { maze := initMaze w h, unvis := cells, vis := [], steps := 0,
      trace := [], dly := 0, rnd := (pop r).2 }
  match randomMember cells (pop r).1 with
  | Except.error e => (s0, Except.error e)
  | Except.ok start =>
    let s1 : WState := { s0 with unvis := setDel cells start, vis := [start] }
    match wilsonLoop sig fuel s1 with
    | (s2, Except.error e) => (s2, Except.error e)
    | (s2, Except.ok _) =>
      let s3 : WState := { s2 with trace := s2.trace ++ [Ev.render none []] }
      match timeoutWithCancel (sig s3.dly) with
      | Except.error e => ({ s3 with dly := s3.dly + 1 }, Except.error e)
      | Except.ok _ =>
        ({ s3 with dly := s3.dly + 1, trace := s3.trace ++ [Ev.delay] }, Except.ok s3.steps)

/-- Signal model under which no abort event ever fires during a pending
delay: this covers both a signal that is never aborted and, per the DOM
event model, a signal that was already aborted before the run started (the
abort event was dispatched before `addEventListener`, so the listener in
`timeoutWithCancel` never fires). -/
def noFire : Nat → Bool := fun _ => false

/-- Signal model under which the abort event fires during whichever delay
window is the first one actually awaited: the signal is triggered
immediately after the run starts. -/
def fireAlways : Nat → Bool := fun _ => true

/-- The step count of a Wilsons-algorithm result, when one was returned. -/
def resultSteps (r : WState × Except String Nat) : Option Nat :=
  match r.2 with
  | Except.ok n => some n
  | Except.error _ => none

/-- The error of a Wilsons-algorithm result, when it failed. -/
def resultErr (r : WState × Except String Nat) : Option String :=
  match r.2 with
  | Except.error e => some e
  | Except.ok _ => none

/-- Is this result the aborted error? -/
def errAborted {β : Type} : Except String β → Bool
  | Except.error e => e == "aborted"
  | Except.ok _ => false

/-- One frontier-expansion step of reachability over carved edges. -/
def reachExpand (st : MazeState) (acc : List Coord) : List Coord :=
  acc ++ ((allCells st.width st.height).filter
    (fun c => !acc.contains c && acc.any (fun a => (cellEdges st a).contains c)))

/-- Iterated frontier expansion. -/
def reachIter (st : MazeState) : Nat → List Coord → List Coord
  | 0, acc => acc
  | n + 1, acc => reachIter st n (reachExpand st acc)

/-- All cells reachable from `c` through carved edges. -/
def reach (st : MazeState) (c : Coord) : List Coord :=
  reachIter st (st.width * st.height) [c]

/-- Every cell is reachable from every cell through carved edges. -/
def allConnected (st : MazeState) : Bool :=
  (allCells st.width st.height).all
    (fun a => (allCells st.width st.height).all (fun b => (reach st a).contains b))

/-- A deterministic complete Wilsons run on the 3 by 1 maze: start cell
(2,0), then a walk from (0,0) through (1,0) into the tree. -/
def runWilson31A : WState × Except String Nat :=
  wilsonsAlgorithm 3 1 [2, 0, 0, 1] noFire 20

/-- A deterministic complete Wilsons run on the 3 by 1 maze: start cell
(1,0), first walk from (0,0), second walk from (2,0). -/
def runWilson31B : WState × Except String Nat :=
  wilsonsAlgorithm 3 1 [1, 0, 0, 0] noFire 20

/-- The same run as `runWilson31B` but with the signal triggered
immediately, so the first awaited delay rejects. -/
def runWilsonAbort : WState × Except String Nat :=
  wilsonsAlgorithm 3 1 [1, 0, 0, 0] fireAlways 20

/-- A deterministic complete Wilsons run on the 3 by 3 maze whose second
walk goes (0,1), (0,2), (1,2), (1,1) and then draws (1,2) again, exercising
the loop-erasure branch. -/
def runWilson33 : WState × Except String Nat :=
  wilsonsAlgorithm 3 3 [0, 0, 0, 1, 2, 0, 2, 3, 2, 2, 0, 0, 0, 0, 0, 0] noFire 30

/-- The deterministic DFS run on the 1 by 1 maze. -/
def dfs11 : MazeState := exceptState (solveMazeWithRandomDPS 1 1 [0])

/-- The deterministic DFS run on the 3 by 3 maze (all random draws 0, so
every shuffle is the identity permutation). -/
def dfs33 : MazeState := exceptState (solveMazeWithRandomDPS 3 3 [0])

/-- The only error `randomMember` can produce is the empty-collection one. -/
theorem randomMember_error_name {α : Type} (l : List α) (k : Nat) (e : String)
    (h : randomMember l k = Except.error e) : e = "empty group" := by
  unfold randomMember at h
  split at h
  · injection h with h2
    exact h2.symm
  · exact Except.noConfusion h

/-- C1: the claim fails on the code.  On the 3 by 1 maze, a run of
`wilsonsAlgorithm` that completes without an abort (it returns the step
count 2) carves 6 directed edge entries, i.e. 3 undirected connections
instead of `width*height - 1 = 2`: the commit loop carves the middle cell to
itself, so that cell records 4 carved-edge entries against only 2
neighbors, and the carved graph is not a tree. -/
theorem wilson_not_spanning_tree_on_3x1 :
    resultSteps runWilson31A = some 2 ∧
    runWilson31A.1.maze.E.length = 6 ∧
    cellEdges runWilson31A.1.maze (1, 0) = [(0, 0), (1, 0), (1, 0), (2, 0)] ∧
    (neighbors 3 1 (1, 0)).length = 2 := by decide

/-- C2: the claim fails on the code.  In the 3 by 3 run `runWilson33`, the
walk reaches the path [(0,1),(0,2),(0,2),(1,2),(1,2),(1,1)] with current
cell (1,1) (first trace membership); the next step pushes (1,1) and draws
next = (1,2), which already occurs in the path, and the loop-erasure slice
yields [(0,1),(0,2),(0,2),(1,2)] (second trace membership and the `stepPath`
equation): the resulting path ends at the newly chosen cell but still
contains the cell (0,2) twice. -/
theorem wilson_loop_erasure_leaves_duplicates :
    Ev.render (some (1, 1)) [(0, 1), (0, 2), (0, 2), (1, 2), (1, 2), (1, 1)]
      ∈ runWilson33.1.trace ∧
    Ev.render (some (1, 2)) [(0, 1), (0, 2), (0, 2), (1, 2)] ∈ runWilson33.1.trace ∧
    ([(0, 1), (0, 2), (0, 2), (1, 2), (1, 2), (1, 1)] ++ [(1, 1)] : List Coord).contains (1, 2)
      = true ∧
    stepPath ([(0, 1), (0, 2), (0, 2), (1, 2), (1, 2), (1, 1)] ++ [(1, 1)]) (1, 2)
      = [(0, 1), (0, 2), (0, 2), (1, 2)] ∧
    (stepPath ([(0, 1), (0, 2), (0, 2), (1, 2), (1, 2), (1, 1)] ++ [(1, 1)]) (1, 2)).count (0, 2)
      = 2 ∧
    resultSteps runWilson33 = some 10 := by decide

/-- C3: the claim fails on the code.  On the 1 by 1 maze the root invocation
of the DFS carver calls `start.carveEdge(start)`, pushing the start cell
twice into its own edge list, so the edge list is not a subset of the
(empty) neighbor list. -/
theorem dfs_root_carves_start_to_itself :
    dfsOk 1 1 [0] = true ∧
    dfs11.E = [((0, 0), (0, 0)), ((0, 0), (0, 0))] ∧
    cellEdges dfs11 (0, 0) = [(0, 0), (0, 0)] ∧
    neighbors 1 1 (0, 0) = [] := by decide

/-- C4: the claim fails on the code.  The deterministic 3 by 3 DFS run ends
with 18 directed edge entries, i.e. 9 carved connections (8 proper
undirected edges plus one self-loop at the start cell) instead of the
claimed 8, although all 9 cells are indeed mutually reachable through the
carved edges. -/
theorem dfs_3x3_carves_nine_connections :
    dfsOk 3 3 [0] = true ∧
    dfs33.E.length = 18 ∧
    dfs33.E.count ((0, 0), (0, 0)) = 2 ∧
    (dfs33.E.filter (fun p => p.1 != p.2)).length = 16 ∧
    allConnected dfs33 = true := by decide

/-- C5: the claim fails on the code.  The run `runWilson31B` takes 2 walk
steps but its trace holds exactly one per-step renderer call: the render and
delay are guarded by `visited.size > 1`, so every step of the first random
walk (here the step from (0,0)) invokes no renderer and awaits no delay. -/
theorem wilson_first_walk_steps_render_nothing :
    resultSteps runWilson31B = some 2 ∧
    runWilson31B.1.steps = 2 ∧
    runWilson31B.1.trace =
      [Ev.render (some (1, 0)) [(2, 0), (1, 0)], Ev.delay,
       Ev.render none [], Ev.delay] := by decide

/-- C6: when the abort event fires while a delay is pending, that delay
fails with the aborted error; the error propagates out of the whole run (the
source has no handler), so with a signal triggered immediately no run ever
returns a step count; concretely, `runWilsonAbort` fails with the aborted
error at the first awaited delay, leaving the maze in exactly the
partially-carved state reached at that point (only the first walk committed,
edge entries between (0,0) and (1,0)). -/
theorem wilson_abort_propagates :
    timeoutWithCancel true = Except.error "aborted" ∧
    (∀ (w h fuel : Nat) (r : List Nat),
      resultSteps (wilsonsAlgorithm w h r fireAlways fuel) = none) ∧
    resultErr runWilsonAbort = some "aborted" ∧
    runWilsonAbort.1.maze.E = [((0, 0), (1, 0)), ((1, 0), (0, 0))] ∧
    runWilsonAbort.1.unvis = [(2, 0)] := by
  refine ⟨rfl, ?_, by decide, by decide, by decide⟩
  intro w h fuel r
  unfold wilsonsAlgorithm
  dsimp only []
  split
  · rfl
  · split
    · rfl
    · rfl

/-- C7: `randomMember` on an empty collection always fails with the
empty-collection error (the thrown `Error("empty group")`), and on a
singleton collection always returns the single element, whatever the random
draw. -/
theorem randomMember_empty_and_singleton :
    ∀ (α : Type) (k : Nat) (a : α),
      randomMember ([] : List α) k = Except.error "empty group" ∧
      randomMember [a] k = Except.ok a := by
  intro α k a
  constructor
  · rfl
  · unfold randomMember
    rw [dif_neg (by simp)]
    simp [Nat.mod_one]

/-- C8: the size claim fails on the code.  In the reachable state `dfs11`
(after the DFS carver on the 1 by 1 maze), `uncarvedEdges` of the single
cell correctly returns the neighbors not in the edge list — the empty list —
but its length 0 differs from `neighbors.size - edges.size = 0 - 2 = -2`,
because the edge list holds two self-entries that are not neighbors. -/
theorem uncarved_size_identity_fails :
    uncarvedEdges dfs11 (0, 0) = [] ∧
    cellEdges dfs11 (0, 0) = [(0, 0), (0, 0)] ∧
    ((neighbors 1 1 (0, 0)).length : Int) - ((cellEdges dfs11 (0, 0)).length : Int) = -2 ∧
    ((uncarvedEdges dfs11 (0, 0)).length : Int) = 0 := by decide

/-- With a signal that fires no abort event during any pending delay, the
inner walk loop never produces the aborted error. -/
theorem walkGo_noFire_not_aborted :
    ∀ (fuel : Nat) (s : WState) (path : List Coord) (cur : Coord),
      errAborted (walkGo noFire fuel s path cur).2 = false := by
  intro fuel
  induction fuel with
  | zero => intro s path cur; rfl
  | succ n ih =>
    intro s path cur
    unfold walkGo
    dsimp only []
    split
    · rfl
    · split
      · rename_i e heq
        have h2 := randomMember_error_name _ _ _ heq
        subst h2
        rfl
      · rename_i next heq
        split
        · exact ih _ _ _
        · exact ih _ _ _

/-- With a signal that fires no abort event during any pending delay, the
outer Wilsons loop never produces the aborted error. -/
theorem wilsonLoop_noFire_not_aborted :
    ∀ (fuel : Nat) (s : WState),
      errAborted (wilsonLoop noFire fuel s).2 = false := by
  intro fuel
  induction fuel with
  | zero => intro s; rfl
  | succ n ih =>
    intro s
    unfold wilsonLoop
    dsimp only []
    split
    · rfl
    · split
      · rename_i e heq
        have h2 := randomMember_error_name _ _ _ heq
        subst h2
        rfl
      · rename_i c0 heq
        split
        · rename_i s2 e heq2
          have h3 := walkGo_noFire_not_aborted n { s with rnd := (pop s.rnd).2 } [] c0
          rw [heq2] at h3
          exact h3
        · exact ih _

/-- C10: the delay primitive registers its abort handler as an event
listener at call time, so a signal that was already aborted when
`timeoutWithCancel` is called (modelled by `noFire`: no abort event fires
during any pending window) never rejects the delay; consequently a whole
Wilsons run started with such a signal never fails with the aborted error,
and the concrete complete run returns its step count normally. -/
theorem already_aborted_signal_never_rejects :
    timeoutWithCancel (noFire 0) = Except.ok () ∧
    (∀ (w h fuel : Nat) (r : List Nat),
      errAborted (wilsonsAlgorithm w h r noFire fuel).2 = false) ∧
    resultSteps runWilson31B = some 2 ∧
    resultErr runWilson31B = none := by
  refine ⟨rfl, ?_, by decide, by decide⟩
  intro w h fuel r
  unfold wilsonsAlgorithm
  dsimp only []
  split
  · rename_i e heq
    have h2 := randomMember_error_name _ _ _ heq
    subst h2
    rfl
  · rename_i start heq1
    split
    · rename_i s2 e heq2
      have h3 := wilsonLoop_noFire_not_aborted fuel
        { maze := initMaze w h, unvis := setDel (allCells w h) start, vis := [start],
          steps := 0, trace := [], dly := 0, rnd := (pop r).2 }
      rw [heq2] at h3
      exact h3
    · rfl

/-- filterMap over a four-element list, elementwise. -/
theorem filterMap_four {α β : Type} (f : α → Option β) (p1 p2 p3 p4 : α) :
    [p1, p2, p3, p4].filterMap f =
      (f p1).toList ++ ((f p2).toList ++ ((f p3).toList ++ (f p4).toList)) := by
  cases h1 : f p1 <;> cases h2 : f p2 <;> cases h3 : f p3 <;> cases h4 : f p4 <;>
    simp [List.filterMap_cons, h1, h2, h3, h4]

/-- The left candidate of the spec neighbor list, resolved. -/
theorem spec_left (w h x y : Nat) (hx : x < w) (hy : y < h) :
    (if inBounds w h ((x : Int) - 1, (y : Int)) then
        some (((x : Int) - 1).toNat, ((y : Int)).toNat) else none) =
      if 0 < x then some (((x - 1 : Nat), y) : Coord) else none := by
  by_cases h0 : 0 < x
  · rw [if_pos (by simp only [inBounds, Bool.and_eq_true, decide_eq_true_eq]; omega),
      if_pos h0]
    simp only [Option.some.injEq, Prod.mk.injEq]
    omega
  · rw [if_neg (by simp only [inBounds, Bool.and_eq_true, decide_eq_true_eq]; omega),
      if_neg h0]

/-- The right candidate of the spec neighbor list, resolved. -/
theorem spec_right (w h x y : Nat) (hx : x < w) (hy : y < h) :
    (if inBounds w h ((x : Int) + 1, (y : Int)) then
        some (((x : Int) + 1).toNat, ((y : Int)).toNat) else none) =
      if x < w - 1 then some (((x + 1 : Nat), y) : Coord) else none := by
  by_cases h0 : x < w - 1
  · rw [if_pos (by simp only [inBounds, Bool.and_eq_true, decide_eq_true_eq]; omega),
      if_pos h0]
    simp only [Option.some.injEq, Prod.mk.injEq]
    omega
  · rw [if_neg (by simp only [inBounds, Bool.and_eq_true, decide_eq_true_eq]; omega),
      if_neg h0]

/-- The top candidate of the spec neighbor list, resolved. -/
theorem spec_top (w h x y : Nat) (hx : x < w) (hy : y < h) :
    (if inBounds w h ((x : Int), (y : Int) - 1) then
        some (((x : Int)).toNat, ((y : Int) - 1).toNat) else none) =
      if 0 < y then some ((x, (y - 1 : Nat)) : Coord) else none := by
  by_cases h0 : 0 < y
  · rw [if_pos (by simp only [inBounds, Bool.and_eq_true, decide_eq_true_eq]; omega),
      if_pos h0]
    simp only [Option.some.injEq, Prod.mk.injEq]
    omega
  · rw [if_neg (by simp only [inBounds, Bool.and_eq_true, decide_eq_true_eq]; omega),
      if_neg h0]

/-- The bottom candidate of the spec neighbor list, resolved. -/
theorem spec_bottom (w h x y : Nat) (hx : x < w) (hy : y < h) :
    (if inBounds w h ((x : Int), (y : Int) + 1) then
        some (((x : Int)).toNat, ((y : Int) + 1).toNat) else none) =
      if y < h - 1 then some ((x, (y + 1 : Nat)) : Coord) else none := by
  by_cases h0 : y < h - 1
  · rw [if_pos (by simp only [inBounds, Bool.and_eq_true, decide_eq_true_eq]; omega),
      if_pos h0]
    simp only [Option.some.injEq, Prod.mk.injEq]
    omega
  · rw [if_neg (by simp only [inBounds, Bool.and_eq_true, decide_eq_true_eq]; omega),
      if_neg h0]

/-- C9: for positive dimensions, a freshly constructed maze holds exactly
width times height cells, every cell in range has as neighbors exactly the
in-bounds grid-adjacent cells at (x-1,y), (x+1,y), (x,y-1), (x,y+1) in that
order, and every edge list is empty. -/
theorem maze_construction_correct (w h x y : Nat) (hw : 0 < w) (hh : 0 < h)
    (hx : x < w) (hy : y < h) :
    (allCells w h).length = w * h ∧
    neighbors w h (x, y) = specNeighbors w h x y ∧
    cellEdges (initMaze w h) (x, y) = [] := by
  refine ⟨?_, ?_, rfl⟩
  · unfold allCells
    rw [List.length_flatMap]
    simp only [Function.comp_def, List.length_map, List.length_range, List.map_const']
    rw [List.sum_replicate, smul_eq_mul, Nat.mul_comm]
  · unfold specNeighbors gridAdjacent
    rw [filterMap_four]
    dsimp only []
    rw [spec_left w h x y hx hy, spec_right w h x y hx hy,
      spec_top w h x y hx hy, spec_bottom w h x y hx hy]
    simp only [apply_ite Option.toList, Option.toList_some, Option.toList_none]
    unfold neighbors
    simp [List.append_assoc]

/-- Closed instance of C9 at width 3, height 3, cell (1, 2), with every
hypothesis discharged. -/
theorem maze_construction_correct_witness :
    (0 < 3 ∧ 1 < 3 ∧ 2 < 3) ∧
    ((allCells 3 3).length = 3 * 3 ∧
      neighbors 3 3 (1, 2) = specNeighbors 3 3 1 2 ∧
      cellEdges (initMaze 3 3) (1, 2) = []) :=
  ⟨by decide, maze_construction_correct 3 3 1 2 (by decide) (by decide) (by decide) (by decide)⟩

end MazeGen
